import Mathlib

/-!
Shallow embedding of the Apple DCP display-coprocessor RPC engine
(drivers/gpu/drm/apple): the 64-bit envelope codec (dcpep.h), the
per-context channel allocator and call stacks (dcp.c), the inbound
callback dispatcher and its handler registry, the swap path, and the
recursive-descent property-list parser (parser.c).

Machine integers are modelled as `Nat` with explicit `% 2^w` where the
C code stores into a fixed-width field (`u8` depth counters, `u16` end
offsets, `u32` envelope length).  Fallible C paths (`ERR_PTR`) are
modelled with `Except`/`Option`.
-/

/-! ## Envelope codec (dcpep.h) -/

/-- `DCPEP_TYPE_SET_SHMEM` in dcpep.h. -/
def DCPEP_TYPE_SET_SHMEM : Nat := 0

/-- `DCPEP_TYPE_INITIALIZED` in dcpep.h. -/
def DCPEP_TYPE_INITIALIZED : Nat := 1

/-- `DCPEP_TYPE_MESSAGE` in dcpep.h. -/
def DCPEP_TYPE_MESSAGE : Nat := 2

/-- Generic 64-bit envelope packing following the bit-field layout fixed in
dcpep.h (`DCPEP_TYPE_SHIFT = 0`, `DCPEP_ACK_SHIFT = 6`,
`DCPEP_CONTEXT_SHIFT = 8`, `DCPEP_OFFSET_SHIFT = 16`,
`DCPEP_LENGTH_SHIFT = 32`); `dcpep_msg` instantiates it with
`DCPEP_TYPE_MESSAGE` exactly as the C inline function does. -/
def dcpep_encode (ty : Nat) (ack : Bool) (ctx offset len : Nat) : Nat :=
  (((ty ||| (if ack then 1 <<< 6 else 0)) ||| (ctx <<< 8)) ||| (offset <<< 16))
    ||| (len <<< 32)

/-- `dcpep_msg` from dcpep.h: a Message-typed envelope. -/
def dcpep_msg (ctx len offset : Nat) (ack : Bool) : Nat :=
  dcpep_encode DCPEP_TYPE_MESSAGE ack ctx offset len

/-- `dcpep_set_shmem` from dcpep.h: the shared-memory handshake word. -/
def dcpep_set_shmem (dart_va : Nat) : Nat :=
  (DCPEP_TYPE_SET_SHMEM <<< 0) ||| (4 <<< 4) ||| (dart_va <<< 16)

/-- The five fields a received envelope is split into by `dcp_got_msg`
(type) and `dcpep_got_msg` (ack, context, offset, length) in dcp.c. -/
structure DcpDecoded where
  ty : Nat
  ack : Bool
  ctx : Nat
  offset : Nat
  len : Nat
deriving DecidableEq, Repr

/-- Envelope decoding as performed on receive in dcp.c:
`type = (message >> DCPEP_TYPE_SHIFT) & DCPEP_TYPE_MASK` (dcp_got_msg),
`ack = message & BIT(DCPEP_ACK_SHIFT)`,
`ctx_id = (message & DCPEP_CONTEXT_MASK) >> DCPEP_CONTEXT_SHIFT`,
`offset = (message & DCPEP_OFFSET_MASK) >> DCPEP_OFFSET_SHIFT`,
`length = message >> DCPEP_LENGTH_SHIFT` truncated to `u32`
(dcpep_got_msg). -/
def dcpep_decode (w : Nat) : DcpDecoded :=
  { ty := (w >>> 0) &&& 3
  , ack := (w &&& (1 <<< 6)) != 0
  , ctx := (w &&& 0xF00) >>> 8
  , offset := (w &&& 0xFFFF0000) >>> 16
  , len := (w >>> 32) % 2 ^ 32 }

/-! ## Property-list parser (parser.c) -/

/-- `OSSERIALIZE_HDR` in parser.c. -/
def OSSERIALIZE_HDR : Nat := 0xd3

/-- `enum os_otype` values from parser.c. -/
def OS_OTYPE_DICTIONARY : Nat := 1

def OS_OTYPE_ARRAY : Nat := 2

def OS_OTYPE_INT64 : Nat := 4

def OS_OTYPE_STRING : Nat := 9

def OS_OTYPE_BLOB : Nat := 10

def OS_OTYPE_BOOL : Nat := 11

/-- `struct dcp_parse_ctx` from parser.h: a byte blob, a cursor and the
blob length (`parse` sets `len` to the byte count of the blob). -/
structure DcpParseCtx where
  blob : List Nat
  pos : Nat
  len : Nat
deriving DecidableEq, Repr

/-- Kernel `round_up(x, 4)` = `(x + 3) & ~3`. -/
def round_up4 (x : Nat) : Nat := (x + 3) / 4 * 4

/-- Little-endian byte-list decoding (each byte taken mod 256). -/
def leBytes : List Nat → Nat
  | [] => 0
  | b :: t => b % 256 + 256 * leBytes t

/-- Little-endian byte encoding of a `u32`. -/
def le4 (n : Nat) : List Nat :=
  [n % 256, n / 256 % 256, n / 65536 % 256, n / 16777216 % 256]

/-- Little-endian byte encoding of a `u64`. -/
def le8 (n : Nat) : List Nat := le4 (n % 2 ^ 32) ++ le4 (n / 2 ^ 32 % 2 ^ 32)

/-- `parse_bytes` from parser.c: the one bounds-checked accessor.  On
success it yields the `count` bytes at the cursor and advances; when
`pos + count` exceeds `len` it returns `ERR_PTR(-EINVAL)` and the
context is unchanged. -/
def parse_bytes (ctx : DcpParseCtx) (count : Nat) :
    Except Int (List Nat) × DcpParseCtx :=
  if ctx.pos + count > ctx.len then (.error (-22), ctx)
  else (.ok ((ctx.blob.drop ctx.pos).take count),
    { ctx with pos := ctx.pos + count })

/-- `parse_u32` from parser.c. -/
def parse_u32 (ctx : DcpParseCtx) : Except Int Nat × DcpParseCtx :=
  match parse_bytes ctx 4 with
  | (.error e, c) => (.error e, c)
  | (.ok bs, c) => (.ok (leBytes bs), c)

/-- `struct os_tag` from parser.c: a packed little-endian 32-bit word
with `size : 24`, `type : 5`, `padding : 2`, `last : 1`. -/
structure OsTag where
  size : Nat
  ty : Nat
  padding : Nat
  last : Bool
deriving DecidableEq, Repr

/-- Bit-field layout of `struct os_tag` on a little-endian machine. -/
def decodeOsTag (w : Nat) : OsTag :=
  { size := w % 2 ^ 24
  , ty := w / 2 ^ 24 % 32
  , padding := w / 2 ^ 29 % 4
  , last := w / 2 ^ 31 % 2 == 1 }

/-- `parse_tag` from parser.c: aligns the cursor up to 4 (this mutation
survives a subsequent bounds failure, as in the C), reads 4 bytes, and
rejects a tag with nonzero reserved padding bits. -/
def parse_tag (ctx : DcpParseCtx) : Except Int OsTag × DcpParseCtx :=
  match parse_bytes { ctx with pos := round_up4 ctx.pos } 4 with
  | (.error e, c') => (.error e, c')
  | (.ok bs, c') =>
    let tag := decodeOsTag (leBytes bs)
    if tag.padding ≠ 0 then (.error (-22), c') else (.ok tag, c')

/-- `parse_tag_type` from parser.c. -/
def parse_tag_type (ctx : DcpParseCtx) (ty : Nat) :
    Except Int OsTag × DcpParseCtx :=
  match parse_tag ctx with
  | (.error e, c) => (.error e, c)
  | (.ok tag, c) => if tag.ty ≠ ty then (.error (-22), c) else (.ok tag, c)

/-- The `for` loops inside `skip`: run the recursive call `n` times,
OR-ing the returned status codes (`ret |= skip(handle)`) and threading
the mutated context even through errors, exactly as the C loop does.
`none` signals recursion-fuel exhaustion, never a parse result. -/
def skipN (f : DcpParseCtx → Option (Int × DcpParseCtx)) :
    Nat → Int → DcpParseCtx → Option (Int × DcpParseCtx)
  | 0, ret, ctx => some (ret, ctx)
  | n + 1, ret, ctx =>
    match f ctx with
    | none => none
    | some (r, c) => skipN f n (Int.lor ret r) c

/-- `skip` from parser.c, with explicit fuel bounding the recursion
depth (each nested `skip` call runs on `fuel - 1`; sequential calls in
one loop share the same fuel, so fuel bounds the call-tree depth, which
is what the C stack does). -/
def skip : Nat → DcpParseCtx → Option (Int × DcpParseCtx)
  | 0, _ => none
  | fuel + 1, ctx =>
    match parse_tag ctx with
    | (.error e, c) => some (e, c)
    | (.ok tag, c) =>
      if tag.ty = OS_OTYPE_DICTIONARY then skipN (skip fuel) (2 * tag.size) 0 c
      else if tag.ty = OS_OTYPE_ARRAY then skipN (skip fuel) tag.size 0 c
      else if tag.ty = OS_OTYPE_INT64 then some (0, { c with pos := c.pos + 8 })
      else if tag.ty = OS_OTYPE_STRING ∨ tag.ty = OS_OTYPE_BLOB then
        some (0, { c with pos := c.pos + tag.size })
      else if tag.ty = OS_OTYPE_BOOL then some (0, c)
      else some (-22, c)

/-- `peek_type` from parser.c.  The C function reads
`parse_tag(&handle)->type` without an `IS_ERR` check: when `parse_tag`
fails it dereferences an error pointer (a wild read outside the blob).
The `none` branch marks that undefined behaviour. -/
def peek_type (ctx : DcpParseCtx) : Option Nat :=
  match parse_tag ctx with
  | (.ok tag, _) => some tag.ty
  | (.error _, _) => none

/-- `parse` from parser.c: checks the 4-byte magic header. -/
def parse (blob : List Nat) : Except Int DcpParseCtx :=
  let ctx : DcpParseCtx := { blob := blob, pos := 0, len := blob.length }
  match parse_u32 ctx with
  | (.error e, _) => .error e
  | (.ok hdr, c) => if hdr ≠ OSSERIALIZE_HDR then .error (-22) else .ok c

/-- `parse_string` from parser.c (the kmalloc'd NUL-terminated copy is
modelled as the raw byte list). -/
def parse_string (ctx : DcpParseCtx) : Except Int (List Nat) × DcpParseCtx :=
  match parse_tag_type ctx OS_OTYPE_STRING with
  | (.error e, c) => (.error e, c)
  | (.ok tag, c) =>
    match parse_bytes c tag.size with
    | (.error e, c') => (.error e, c')
    | (.ok bs, c') => (.ok bs, c')

/-- Two's-complement reading of a 64-bit pattern as `s64`. -/
def toS64 (n : Nat) : Int :=
  if n % 2 ^ 64 < 2 ^ 63 then (n % 2 ^ 64 : Nat)
  else (n % 2 ^ 64 : Nat) - ((2 ^ 64 : Nat) : Int)

/-- `parse_int64` from parser.c: tag must be Int64, then 8 raw
little-endian bytes follow. -/
def parse_int64 (ctx : DcpParseCtx) : Except Int Int × DcpParseCtx :=
  match parse_tag_type ctx OS_OTYPE_INT64 with
  | (.error e, c) => (.error e, c)
  | (.ok _, c) =>
    match parse_bytes c 8 with
    | (.error e, c') => (.error e, c')
    | (.ok bs, c') => (.ok (toS64 (leBytes bs)), c')

/-- `parse_bool` from parser.c: the size field doubles as the value. -/
def parse_bool (ctx : DcpParseCtx) : Except Int Bool × DcpParseCtx :=
  match parse_tag_type ctx OS_OTYPE_BOOL with
  | (.error e, c) => (.error e, c)
  | (.ok tag, c) => (.ok (tag.size != 0), c)

/-- `iterator_begin` from parser.c: returns (status, element count,
context).  The `foreach_in_array`/`foreach_in_dict` macros discard the
status, so a failed begin leaves the count at its zero initialisation
and the loop body never runs — modelled by returning count 0. -/
def iterator_begin (ctx : DcpParseCtx) (dictionary : Bool) :
    Int × Nat × DcpParseCtx :=
  match parse_tag_type ctx
      (if dictionary then OS_OTYPE_DICTIONARY else OS_OTYPE_ARRAY) with
  | (.error e, c) => (e, 0, c)
  | (.ok tag, c) => (0, tag.size, c)

/-- C-string content of a parsed key (its bytes up to the first NUL),
as compared by `strcmp` against a literal. -/
def cstr (l : List Nat) : List Nat := l.takeWhile (fun b => b % 256 != 0)

/-- ASCII bytes of `"Score"`. -/
def keyScore : List Nat := [83, 99, 111, 114, 101]

/-- ASCII bytes of `"ID"`. -/
def keyID : List Nat := [73, 68]

/-- The `foreach_in_dict` body of `parse_color_modes`: walk `n`
key/value pairs accumulating the local `score` and `id` (both start at
-1); `"Score"`/`"ID"` keys are parsed as Int64, any other key is
skipped with the skip status discarded, and a parse error aborts. -/
def pcm_pairs (fuel : Nat) :
    Nat → Int → Int → DcpParseCtx → Option (Except Int (Int × Int) × DcpParseCtx)
  | 0, score, id, ctx => some (.ok (score, id), ctx)
  | k + 1, score, id, ctx =>
    match parse_string ctx with
    | (.error e, c) => some (.error e, c)
    | (.ok key, c) =>
      if cstr key = keyScore then
        match parse_int64 c with
        | (.error e, c') => some (.error e, c')
        | (.ok v, c') => pcm_pairs fuel k v id c'
      else if cstr key = keyID then
        match parse_int64 c with
        | (.error e, c') => some (.error e, c')
        | (.ok v, c') => pcm_pairs fuel k score v c'
      else
        match skip fuel c with
        | none => none
        | some (_, c') => pcm_pairs fuel k score id c'

/-- The `foreach_in_array` body of `parse_color_modes`: for each of `n`
entries, open its dictionary, fold its pairs, skip partial entries
(`score < 0 || id < 0`), and replace the best entry only on a strictly
greater score. -/
def pcm_entries (fuel : Nat) :
    Nat → Int → Int → DcpParseCtx → Option (Except Int (Int × Int) × DcpParseCtx)
  | 0, best_score, best_id, ctx => some (.ok (best_score, best_id), ctx)
  | k + 1, bs, bi, ctx =>
    let r := iterator_begin ctx true
    match pcm_pairs fuel r.2.1 (-1) (-1) r.2.2 with
    | none => none
    | some (.error e, c') => some (.error e, c')
    | some (.ok (score, id), c') =>
      if score < 0 ∨ id < 0 then pcm_entries fuel k bs bi c'
      else if score > bs then pcm_entries fuel k score id c'
      else pcm_entries fuel k bs bi c'

/-- `parse_color_modes` from parser.c: `*best_id` starts at -1 and the
array iterator's status is discarded exactly as in the C macro. -/
def parse_color_modes (fuel : Nat) (ctx : DcpParseCtx) :
    Option (Except Int Int × DcpParseCtx) :=
  let r := iterator_begin ctx false
  match pcm_entries fuel r.2.1 (-1) (-1) r.2.2 with
  | none => none
  | some (.error e, c') => some (.error e, c')
  | some (.ok (_, bi), c') => some (.ok bi, c')

/-! ### Encoder fixtures for well-formed ColorModes arrays -/

/-- A context over a whole blob with an explicit cursor. -/
def ctxAt (B : List Nat) (p : Nat) : DcpParseCtx := ⟨B, p, B.length⟩

/-- A tag word with clear padding/last bits. -/
def osTagWord (sz ty : Nat) : Nat := sz % 2 ^ 24 + ty % 32 * 2 ^ 24

/-- Wire bytes of a tag. -/
def encTag (sz ty : Nat) : List Nat := le4 (osTagWord sz ty)

/-- Wire bytes of an Int64 value (tag + 8 LE bytes). -/
def encInt64 (v : Int) : List Nat :=
  encTag 8 OS_OTYPE_INT64 ++ le8 (v % ((2 ^ 64 : Nat) : Int)).toNat

/-- Wire bytes of the `"Score"` key, padded to the 4-byte alignment the
next tag read will skip to. -/
def encKeyScore : List Nat := encTag 5 OS_OTYPE_STRING ++ keyScore ++ [0, 0, 0]

/-- Wire bytes of the `"ID"` key, padded likewise. -/
def encKeyID : List Nat := encTag 2 OS_OTYPE_STRING ++ keyID ++ [0, 0]

/-- Pair payload of one `{Score, ID}` dictionary entry. -/
def encEntryBody (e : Int × Int) : List Nat :=
  encKeyScore ++ encInt64 e.1 ++ encKeyID ++ encInt64 e.2

/-- One `{Score, ID}` dictionary entry (48 bytes). -/
def encEntry (e : Int × Int) : List Nat :=
  encTag 2 OS_OTYPE_DICTIONARY ++ encEntryBody e

/-- A well-formed ColorModes array of `{Score, ID}` dictionaries. -/
def encColorModes (l : List (Int × Int)) : List Nat :=
  encTag l.length OS_OTYPE_ARRAY ++ (l.map encEntry).flatten

/-- The accumulator update `parse_color_modes` performs across entries:
replace the best (score, id) only when strictly greater. -/
def bestFold : List (Int × Int) → Int × Int → Int × Int
  | [], acc => acc
  | e :: t, acc => bestFold t (if e.1 > acc.1 then e else acc)

/-- Score and ID both non-negative and in `s64` range. -/
def goodEntry (e : Int × Int) : Prop :=
  0 ≤ e.1 ∧ e.1 < ((2 ^ 63 : Nat) : Int) ∧
    0 ≤ e.2 ∧ e.2 < ((2 ^ 63 : Nat) : Int)

instance (e : Int × Int) : Decidable (goodEntry e) := by
  unfold goodEntry; infer_instance

/-! ## Channels, call stacks and dispatch (dcp.c) -/

/-- `enum dcp_context_id` from dcpep.h. -/
inductive DcpContextId where
  | cb | cmd | async | oobcb | oobcmd
deriving DecidableEq, Repr

/-- Numeric values of the context ids (CB = 0, CMD = 2, ASYNC = 3,
OOBCB = 4, OOBCMD = 5). -/
def DcpContextId.val : DcpContextId → Nat
  | .cb => 0
  | .cmd => 2
  | .async => 3
  | .oobcb => 4
  | .oobcmd => 5

/-- `dcp_tx_offset` from dcpep.h (`none` models the `-EINVAL` return for
contexts without a transmit window). -/
def dcp_tx_offset : DcpContextId → Option Nat
  | .cb | .cmd => some 0x00000
  | .oobcb | .oobcmd => some 0x08000
  | .async => none

/-- `dcp_channel_offset` from dcpep.h: receive windows for the callback
contexts, otherwise the transmit window. -/
def dcp_channel_offset : DcpContextId → Option Nat
  | .async => some 0x40000
  | .cb => some 0x60000
  | .oobcb => some 0x68000
  | c => dcp_tx_offset c

/-- One in-flight call on a `dcp_call_channel`: the per-depth
`callbacks`/`cookies`/`output`/`end` array entries of dcp.c, with the
continuation function pointer and its cookie modelled as opaque
numeric identifiers (0 = NULL). -/
structure DcpCallFrame where
  cb : Nat
  cookie : Nat
  output : Nat
  end_ : Nat
deriving DecidableEq, Repr

/-- `struct dcp_call_channel`: the arrays indexed by the `u8` depth
counter are modelled as a stack whose head is the top frame, so
`frames.length` is the current depth. -/
structure DcpCallChannel where
  frames : List DcpCallFrame
deriving DecidableEq, Repr

/-- `dcp_packet_start` from dcp.c: 0 on an empty stack, otherwise the
previous frame's recorded end offset. -/
def dcp_packet_start (ch : DcpCallChannel) : Nat :=
  match ch.frames with
  | [] => 0
  | f :: _ => f.end_

/-- `dcp_pop_depth` on a `u8` counter: `--(*depth)` wraps 0 to 255 (the
C warns via `WARN_ON(*depth == 0)` but decrements regardless). -/
def dcp_pop_depth (d : Nat) : Nat := (d + 255) % 256

/-- `ALIGN(x, a)` for a power-of-two `a`: round up. -/
def alignUp (x a : Nat) : Nat := (x + a - 1) / a * a

/-- `DCP_PACKET_ALIGNMENT` from dcpep.h. -/
def DCP_PACKET_ALIGNMENT : Nat := 0x40

/-- The method tags of `dcp_methods` in dcp.c (4-character codes,
unreversed; `dcp_push` writes them reversed). -/
def tag_start_signal : List Nat := [65, 52, 48, 49]

/-- Tag "A407" (`dcp_swap_start`). -/
def tag_swap_start : List Nat := [65, 52, 48, 55]

/-- Tag "A408" (`dcp_swap_submit`). -/
def tag_swap_submit : List Nat := [65, 52, 48, 56]

/-- Byte-wise store into the shared-memory map. -/
def writeBytes (m : Nat → Nat) (addr : Nat) : List Nat → (Nat → Nat)
  | [] => m
  | b :: t => writeBytes (fun x => if x = addr then b % 256 else m x) (addr + 1) t

/-- Byte-wise load from the shared-memory map. -/
def readBytes (m : Nat → Nat) (addr : Nat) : Nat → List Nat
  | 0 => []
  | n + 1 => m addr :: readBytes m (addr + 1) n

/-- The engine state of `struct apple_dcp` used by the RPC core: the
shared buffer, the mapping counter, the two outbound call channels and
the three callback-channel depth counters. -/
structure AppleDcp where
  shmem : Nat → Nat
  nr_mappings : Nat
  ch_cmd : DcpCallChannel
  ch_oobcmd : DcpCallChannel
  ch_cb : Nat
  ch_oobcb : Nat
  ch_async : Nat
  active : Bool

/-- `dcp_get_call_channel` from dcp.c. -/
def getCallCh (dcp : AppleDcp) : DcpContextId → Option DcpCallChannel
  | .cmd | .cb => some dcp.ch_cmd
  | .oobcmd | .oobcb => some dcp.ch_oobcmd
  | .async => none

/-- Store back the call channel selected by `dcp_get_call_channel`. -/
def setCallCh (dcp : AppleDcp) (c : DcpContextId) (ch : DcpCallChannel) :
    AppleDcp :=
  match c with
  | .cmd | .cb => { dcp with ch_cmd := ch }
  | .oobcmd | .oobcb => { dcp with ch_oobcmd := ch }
  | .async => dcp

/-- Whether `dcp_get_cb_channel` returns a channel for this context. -/
def hasCbChannel : DcpContextId → Bool
  | .cb | .oobcb | .async => true
  | _ => false

/-- `dcp_push` from dcp.c: compute the old depth and the packet start
offset, write the 12-byte header (tag reversed) plus the input bytes at
the context's transmit window, record the new frame (output pointer
after header + input; `end` is a `u16` store), and send a non-ack
envelope carrying the context, offset and unaligned total length (the
length argument of `dcpep_msg` is a `u32`).  A context without a call
channel is never pushed by the driver and is modelled as a no-op. -/
def dcp_push (dcp : AppleDcp) (context : DcpContextId) (tag : List Nat)
    (in_len out_len : Nat) (data : List Nat) (cbId cookieId : Nat) :
    AppleDcp × Nat :=
  match getCallCh dcp context with
  | none => (dcp, 0)
  | some ch =>
    let offset := dcp_packet_start ch
    let base := (dcp_tx_offset context).getD 0 + offset
    let header := tag.reverse ++ le4 in_len ++ le4 out_len
    let data_len := 12 + in_len + out_len
    let shmem' := writeBytes dcp.shmem base (header ++ data.take in_len)
    let frame : DcpCallFrame :=
      { cb := cbId
      , cookie := cookieId
      , output := base + 12 + in_len
      , end_ := (offset + alignUp data_len DCP_PACKET_ALIGNMENT) % 2 ^ 16 }
    (setCallCh { dcp with shmem := shmem' } context { frames := frame :: ch.frames },
      dcpep_msg context.val (data_len % 2 ^ 32) offset false)

/-- `dcpep_handle_ack` from dcp.c: pop the top frame (the C reads
`callbacks[--depth]`), re-read the header's `in_len` from shared memory
at the offset named by the ack, and report the continuation invocation
as `(callback id, output address, cookie id)`; `none` when the `cb`
function pointer is NULL.  An ack on an unknown context is ignored; an
ack on an empty stack is a protocol violation (`WARN_ON`) whose
out-of-bounds array read is not modelled. -/
def dcpep_handle_ack (dcp : AppleDcp) (context : DcpContextId)
    (offset : Nat) : AppleDcp × Option (Nat × Nat × Nat) :=
  match getCallCh dcp context with
  | none => (dcp, none)
  | some ch =>
    match ch.frames with
    | [] => (dcp, none)
    | f :: rest =>
      let dataAddr := (dcp_channel_offset context).getD 0 + offset
      let inLen := leBytes (readBytes dcp.shmem (dataAddr + 4) 4)
      (setCallCh dcp context { frames := rest },
        if f.cb = 0 then none else some (f.cb, dataAddr + 12 + inLen, f.cookie))

/-- `dcp_parse_tag` from dcp.c: `"<d0><d1><d2>D"` with ASCII digits
maps to `d0 + 10*d1 + 100*d2`; anything else is `-EINVAL`. -/
def dcp_parse_tag (tag : List Nat) : Except Int Nat :=
  if tag.getD 3 0 ≠ 68 then .error (-22)
  else
    let b0 := tag.getD 0 0
    let b1 := tag.getD 1 0
    let b2 := tag.getD 2 0
    if 48 ≤ b0 ∧ b0 ≤ 57 ∧ 48 ≤ b1 ∧ b1 ≤ 57 ∧ 48 ≤ b2 ∧ b2 ≤ 57 then
      .ok ((b0 - 48) + (b1 - 48) * 10 + (b2 - 48) * 100)
    else .error (-22)

/-- `DCPEP_MAX_CB` from dcp.c. -/
def DCPEP_MAX_CB : Nat := 1000

/-- The indices populated in the `dcpep_cb_handlers` registry table. -/
def dcpep_cb_registered (t : Nat) : Bool :=
  [0, 1, 2, 3, 100, 101, 103, 106, 107, 108, 109, 110, 111, 116, 119,
   121, 122, 123, 201, 206, 207, 300, 401, 408, 411, 413, 414, 415,
   451, 452, 552, 561, 563, 565, 567, 574, 576, 577, 589, 591,
   598].contains t

/-- Whether the registered handler returns `true` (auto-ack).  Every
registered handler in dcp.c returns `true` except `dcpep_cb_boot_1`
(index 116, `start_hardware_boot`), which starts the nested boot chain
and acks later. -/
def dcpep_cb_acks (t : Nat) : Bool := t != 116

/-- `dcp_ack` from dcp.c restricted to the callback channel's depth
counter: pop the depth (`u8`), send an empty ack envelope
(`dcpep_msg(context, 0, 0, true)`). -/
def dcp_ack_depth (d : Nat) (context : DcpContextId) : Nat × Nat :=
  (dcp_pop_depth d, dcpep_msg context.val 0 0 true)

/-- `dcpep_handle_cb` from dcp.c, tracking the callback channel's `u8`
depth and the envelopes sent.  An invalid tag jumps to the ack *before*
any depth push; an unregistered id pushes and then acks; a registered
auto-acking handler runs (no registered handler modifies any
callback-channel depth) and is acked; `start_hardware_boot` returns
`false` and no ack is sent during dispatch. -/
def dcpep_handle_cb (context : DcpContextId) (data : List Nat)
    (depth : Nat) : Nat × List Nat :=
  match dcp_parse_tag (data.take 4) with
  | .error _ =>
    let r := dcp_ack_depth depth context
    (r.1, [r.2])
  | .ok t =>
    if DCPEP_MAX_CB ≤ t then
      let r := dcp_ack_depth depth context
      (r.1, [r.2])
    else
      let d1 := (depth + 1) % 256
      if ¬ dcpep_cb_registered t then
        let r := dcp_ack_depth d1 context
        (r.1, [r.2])
      else if dcpep_cb_acks t then
        let r := dcp_ack_depth d1 context
        (r.1, [r.2])
      else (d1, [])

/-! ### Inbound handlers with claim-relevant bodies -/

/-- The fixed register-window table hardcoded in `dcpep_cb_map_reg`
(address, length). -/
def dcp_map_reg_registers : List (Nat × Nat) :=
  [ (0x230000000, 0x3e8000)
  , (0x231320000, 0x4000)
  , (0x231344000, 0x4000)
  , (0x231800000, 0x800000)
  , (0x23b3d0000, 0x4000)
  , (0x23b738000, 0x1000)
  , (0x23bc3c000, 0x1000) ]

/-- `dcpep_cb_map_reg` from dcp.c: reply (addr, length, ret); an
out-of-range index gets the error reply `{ .ret = 1 }`. -/
def dcpep_cb_map_reg (index : Nat) : Nat × Nat × Nat :=
  match dcp_map_reg_registers.get? index with
  | none => (0, 0, 1)
  | some (a, l) => (a, l, 0)

/-- Reply of `dcpep_cb_map_physical` (`struct dcp_map_physical_resp`):
device-virtual address, size and mapping id — the layout has no status
field. -/
structure DcpMapPhysicalResp where
  dva : Nat
  dva_size : Nat
  mem_desc_id : Nat
deriving DecidableEq, Repr

/-- `dcpep_cb_map_physical` from dcp.c: unconditionally
`dma_map_resource` the requested physical range (rounded up to 4096),
bump `nr_mappings`, and reply with the new id.  `dmaMap` stands for the
IOMMU layer's address choice; the returned list records every
physical range actually mapped into the coprocessor's address space. -/
def dcpep_cb_map_physical (dmaMap : Nat → Nat → Nat) (nr_mappings : Nat)
    (paddr size : Nat) : DcpMapPhysicalResp × Nat × List (Nat × Nat) :=
  let dva_size := alignUp size 4096
  ( { dva := dmaMap paddr dva_size, dva_size := dva_size
    , mem_desc_id := nr_mappings + 1 }
  , nr_mappings + 1
  , [(paddr, dva_size)] )

/-- The pre-approved register windows: containment of `[paddr,
paddr+size)` in one of the `dcpep_cb_map_reg` entries.  This is the
security boundary the specification requires `map_physical` to
enforce. -/
def inApprovedWindows (paddr size : Nat) : Bool :=
  dcp_map_reg_registers.any
    (fun w => decide (w.1 ≤ paddr) && decide (paddr + size ≤ w.1 + w.2))

/-- `dcp_swapped` from dcp.c (the `swap_submit` continuation): a
non-zero response status fakes an immediate vblank completion event;
each `Unit` in the result is one `apple_crtc_vblank` call. -/
def dcp_swapped (respRet : Nat) : List Unit :=
  if respRet ≠ 0 then [()] else []

/-- `dcp_swap` from dcp.c: build the swap-submit request from the
atomic state (contents immaterial here), then *unconditionally* push
`swap_start` (in 0x18, out 0x18 bytes) on the Command channel with the
`dcp_swap_started` continuation.  Returns the new state, the envelopes
sent, and the vblank events emitted synchronously (none: the function
contains no busy check and no synthetic-failure path). -/
def dcp_swap (dcp : AppleDcp) (reqBytes : List Nat) :
    AppleDcp × List Nat × List Unit :=
  let r := dcp_push dcp .cmd tag_swap_start 0x18 0x18 reqBytes 2 1
  (r.1, [r.2], [])

/-- An idle engine: empty channels, zeroed shared memory. -/
def dcpInit : AppleDcp :=
  { shmem := fun _ => 0
  , nr_mappings := 0
  , ch_cmd := { frames := [] }
  , ch_oobcmd := { frames := [] }
  , ch_cb := 0
  , ch_oobcb := 0
  , ch_async := 0
  , active := true }

/-! ## Theorems -/

/-- Mask-and-shift field extraction equals div/mod extraction. -/
theorem and_mask_shift_eq (w s k : Nat) :
    (w &&& ((2 ^ k - 1) <<< s)) >>> s = w / 2 ^ s % 2 ^ k := by
  apply Nat.eq_of_testBit_eq
  intro i
  simp only [Nat.testBit_shiftRight, Nat.testBit_and, Nat.testBit_shiftLeft,
    Nat.testBit_two_pow_sub_one]
  rw [show w / 2 ^ s = w >>> s from (Nat.shiftRight_eq_div_pow w s).symm,
    Nat.testBit_mod_two_pow, Nat.testBit_shiftRight]
  by_cases h : i < k
  · simp [h, Nat.add_sub_cancel_left, Nat.add_comm s i]
  · simp [h, Nat.add_sub_cancel_left]

/-- The envelope packing is an additive split: the five fields occupy
non-overlapping bit ranges. -/
theorem dcpep_encode_eq_add (ty : Nat) (ack : Bool) (ctx offset len : Nat)
    (hty : ty < 4) (hctx : ctx < 16) (hoff : offset < 65536) :
    dcpep_encode ty ack ctx offset len =
      len * 2 ^ 32 + offset * 2 ^ 16 + ctx * 2 ^ 8 +
        (if ack then 2 ^ 6 else 0) + ty := by
  unfold dcpep_encode
  have hack : (if ack then 1 <<< 6 else 0) < 2 ^ 7 := by
    cases ack <;> simp [Nat.shiftLeft_eq]
  have h1 : ty ||| (if ack then 1 <<< 6 else 0) =
      (if ack then 2 ^ 6 else 0) + ty := by
    cases ack
    · simp
    · simp only [if_true]
      rw [Nat.or_comm, show (1 : Nat) <<< 6 = 2 ^ 6 * 1 by rfl,
        ← Nat.mul_add_lt_is_or (by omega) 1]
      omega
  have hb1 : ty ||| (if ack then 1 <<< 6 else 0) < 2 ^ 8 := by
    rw [h1]; cases ack <;> simp <;> omega
  have h2 : (ty ||| (if ack then 1 <<< 6 else 0)) ||| ctx <<< 8 =
      ctx * 2 ^ 8 + ((if ack then 2 ^ 6 else 0) + ty) := by
    rw [Nat.or_comm, Nat.shiftLeft_eq, Nat.mul_comm ctx,
      ← Nat.mul_add_lt_is_or hb1 ctx, h1]
  have hb2 : (ty ||| (if ack then 1 <<< 6 else 0)) ||| ctx <<< 8 < 2 ^ 16 := by
    rw [h2]; cases ack <;> simp <;> omega
  have h3 : ((ty ||| (if ack then 1 <<< 6 else 0)) ||| ctx <<< 8) |||
      offset <<< 16 =
      offset * 2 ^ 16 + (ctx * 2 ^ 8 + ((if ack then 2 ^ 6 else 0) + ty)) := by
    rw [Nat.or_comm, Nat.shiftLeft_eq, Nat.mul_comm offset,
      ← Nat.mul_add_lt_is_or hb2 offset, h2]
  have hb3 : ((ty ||| (if ack then 1 <<< 6 else 0)) ||| ctx <<< 8) |||
      offset <<< 16 < 2 ^ 32 := by
    rw [h3]; cases ack <;> simp <;> omega
  rw [Nat.or_comm, Nat.shiftLeft_eq, Nat.mul_comm len,
    ← Nat.mul_add_lt_is_or hb3 len, h3]
  omega

/-- C2: decoding the 64-bit word produced by encoding a
(type, ack, context, offset, length) tuple whose components fit their
2/1/4/16/32-bit fields returns the original tuple; the fields sit at
bits [1:0], [6], [11:8], [31:16] and [63:32] respectively. -/
theorem dcpep_decode_encode (ty : Nat) (ack : Bool) (ctx offset len : Nat)
    (hty : ty < 4) (hctx : ctx < 16) (hoff : offset < 65536)
    (hlen : len < 4294967296) :
    dcpep_decode (dcpep_encode ty ack ctx offset len) =
      ⟨ty, ack, ctx, offset, len⟩ := by
  have hw := dcpep_encode_eq_add ty ack ctx offset len hty hctx hoff
  unfold dcpep_decode
  rw [hw]
  have hty' : (len * 2 ^ 32 + offset * 2 ^ 16 + ctx * 2 ^ 8 +
      (if ack then 2 ^ 6 else 0) + ty) >>> 0 &&& 3 = ty := by
    rw [Nat.shiftRight_zero, show (3 : Nat) = 2 ^ 2 - 1 by rfl,
      Nat.and_pow_two_sub_one_eq_mod]
    cases ack <;> simp <;> omega
  have hctx' : ((len * 2 ^ 32 + offset * 2 ^ 16 + ctx * 2 ^ 8 +
      (if ack then 2 ^ 6 else 0) + ty) &&& 0xF00) >>> 8 = ctx := by
    rw [show (0xF00 : Nat) = (2 ^ 4 - 1) <<< 8 by rfl, and_mask_shift_eq]
    cases ack <;> simp <;> omega
  have hoff' : ((len * 2 ^ 32 + offset * 2 ^ 16 + ctx * 2 ^ 8 +
      (if ack then 2 ^ 6 else 0) + ty) &&& 0xFFFF0000) >>> 16 = offset := by
    rw [show (0xFFFF0000 : Nat) = (2 ^ 16 - 1) <<< 16 by rfl, and_mask_shift_eq]
    cases ack <;> simp <;> omega
  have hlen' : ((len * 2 ^ 32 + offset * 2 ^ 16 + ctx * 2 ^ 8 +
      (if ack then 2 ^ 6 else 0) + ty) >>> 32) % 2 ^ 32 = len := by
    rw [Nat.shiftRight_eq_div_pow]
    cases ack <;> simp <;> omega
  have hack' : (((len * 2 ^ 32 + offset * 2 ^ 16 + ctx * 2 ^ 8 +
      (if ack then 2 ^ 6 else 0) + ty) &&& (1 <<< 6)) != 0) = ack := by
    rw [show (1 : Nat) <<< 6 = 2 ^ 6 by rfl, Nat.and_two_pow]
    have : (len * 2 ^ 32 + offset * 2 ^ 16 + ctx * 2 ^ 8 +
        (if ack then 2 ^ 6 else 0) + ty).testBit 6 = ack := by
      rw [Nat.testBit_to_div_mod]
      cases ack <;> simp <;> omega
    rw [this]
    cases ack <;> simp
  simp only [DcpDecoded.mk.injEq]
  exact ⟨hty', hack', hctx', hoff', hlen'⟩

/-- Witness for C2 at a concrete tuple. -/
theorem dcpep_decode_encode_witness :
    (2 : Nat) < 4 ∧ (5 : Nat) < 16 ∧ (0x40 : Nat) < 65536 ∧
      (60 : Nat) < 4294967296 ∧
      dcpep_decode (dcpep_encode 2 true 5 0x40 60) = ⟨2, true, 5, 0x40, 60⟩ :=
  ⟨by decide, by decide, by decide, by decide,
    dcpep_decode_encode 2 true 5 0x40 60 (by decide) (by decide) (by decide)
      (by decide)⟩

/-- `getCallCh` after `setCallCh` on the same non-async context. -/
theorem getCallCh_set (dcp : AppleDcp) (c : DcpContextId)
    (ch : DcpCallChannel) (h : c ≠ .async) :
    getCallCh (setCallCh dcp c ch) c = some ch := by
  cases c <;> simp [getCallCh, setCallCh] at h ⊢

/-- Every successful `parse_bytes` read is bounds-checked: it can only
return bytes when the whole range `[pos, pos+count)` lies inside
`[0, len)`. -/
theorem parse_bytes_in_bounds (ctx : DcpParseCtx) (count : Nat)
    (bs : List Nat) (c : DcpParseCtx)
    (h : parse_bytes ctx count = (.ok bs, c)) :
    ctx.pos + count ≤ ctx.len := by
  unfold parse_bytes at h
  by_cases hg : ctx.pos + count > ctx.len
  · simp [hg] at h
  · omega

/-- C4: the bounds-safety claim fails at `peek_type`.  On the blob that
is just the 4-byte magic header, `parse` succeeds with the cursor at
the end; `parse_tag` there correctly reports `ERR_PTR(-EINVAL)`, but
the C `peek_type` dereferences that error pointer without an `IS_ERR`
check — a read far outside `[blob, blob+len)` (undefined behaviour),
marked `none` in the model — instead of surfacing a malformed-input
error. -/
theorem peek_type_derefs_error_pointer :
    parse [0xd3, 0, 0, 0] = .ok (ctxAt [0xd3, 0, 0, 0] 4) ∧
    (parse_tag (ctxAt [0xd3, 0, 0, 0] 4)).1 = .error (-22) ∧
    peek_type (ctxAt [0xd3, 0, 0, 0] 4) = none := by
  refine ⟨rfl, rfl, rfl⟩

/-- C1: `dcpep_cb_map_physical` enforces no window containment: the
request (paddr 0x1000, size 0x1000) lies in no approved register
window, yet the handler maps exactly that physical range, bumps the
mapping counter and replies with the fresh id — and the reply layout
(`struct dcp_map_physical_resp`) has no status field with which a
refusal could even be expressed. -/
theorem map_physical_unchecked (dmaMap : Nat → Nat → Nat) (nr : Nat) :
    inApprovedWindows 0x1000 0x1000 = false ∧
    (dcpep_cb_map_physical dmaMap nr 0x1000 0x1000).2.2 = [(0x1000, 0x1000)] ∧
    (dcpep_cb_map_physical dmaMap nr 0x1000 0x1000).1.mem_desc_id = nr + 1 ∧
    (dcpep_cb_map_physical dmaMap nr 0x1000 0x1000).2.1 = nr + 1 := by
  refine ⟨by decide, ?_, rfl, rfl⟩
  simp [dcpep_cb_map_physical, alignUp]

/-- C9 at the failing input: a non-ack message with tag bytes "XXXX"
fails `dcp_parse_tag`, and the dispatcher jumps to the ack *before* any
depth push, so the ack's pop is unmatched: from depth 0 the `u8`
counter wraps to 255 instead of returning to 0 (firing the code's own
`WARN_ON(*depth == 0)` in `dcp_pop_depth`). -/
theorem handle_cb_invalid_tag_unbalanced :
    dcpep_handle_cb .cb [88, 88, 88, 88] 0 =
      (255, [dcpep_msg DcpContextId.cb.val 0 0 true]) ∧ (255 : Nat) ≠ 0 :=
  ⟨rfl, by decide⟩

/-- C6: for every inbound non-ack packet on a callback context whose
parsed tag is invalid, out of the registry's range, or registered to no
handler, the dispatcher still sends exactly one acknowledgment envelope
for the same context with empty output (decoded length 0), so the
coprocessor is never left waiting (the warning log is not modelled). -/
theorem handle_cb_unknown_acks (context : DcpContextId) (data : List Nat)
    (depth : Nat) (hcb : hasCbChannel context = true)
    (h : match dcp_parse_tag (data.take 4) with
         | .error _ => True
         | .ok t => DCPEP_MAX_CB ≤ t ∨ dcpep_cb_registered t = false) :
    (dcpep_handle_cb context data depth).2 =
      [dcpep_msg context.val 0 0 true] ∧
    (dcpep_decode (dcpep_msg context.val 0 0 true)).len = 0 ∧
    (dcpep_decode (dcpep_msg context.val 0 0 true)).ctx = context.val ∧
    (dcpep_decode (dcpep_msg context.val 0 0 true)).ack = true := by
  refine ⟨?_, ?_, ?_, ?_⟩
  · rcases htag : dcp_parse_tag (data.take 4) with e | t
    · simp [dcpep_handle_cb, htag, dcp_ack_depth]
    · rw [htag] at h
      rcases h with h | h
      · simp [dcpep_handle_cb, htag, dcp_ack_depth, h]
      · by_cases ht : DCPEP_MAX_CB ≤ t <;>
          simp [dcpep_handle_cb, htag, dcp_ack_depth, h, ht]
  · cases context <;> decide
  · cases context <;> decide
  · cases context <;> decide

/-- Witness for C6: tag "004D" parses to id 4, which has no registered
handler; the dispatcher acks with an empty envelope. -/
theorem handle_cb_unknown_acks_witness :
    hasCbChannel DcpContextId.cb = true ∧
    (match dcp_parse_tag ([52, 48, 48, 68].take 4) with
     | .error _ => True
     | .ok t => DCPEP_MAX_CB ≤ t ∨ dcpep_cb_registered t = false) ∧
    ((dcpep_handle_cb .cb [52, 48, 48, 68] 5).2 =
        [dcpep_msg DcpContextId.cb.val 0 0 true] ∧
      (dcpep_decode (dcpep_msg DcpContextId.cb.val 0 0 true)).len = 0 ∧
      (dcpep_decode (dcpep_msg DcpContextId.cb.val 0 0 true)).ctx =
        DcpContextId.cb.val ∧
      (dcpep_decode (dcpep_msg DcpContextId.cb.val 0 0 true)).ack = true) :=
  ⟨by decide, by exact Or.inr (by decide),
    handle_cb_unknown_acks .cb [52, 48, 48, 68] 5 (by decide)
      (by exact Or.inr (by decide))⟩

/-- The channel state after `dcp_push`: the new frame on top. -/
theorem dcp_push_channel (dcp : AppleDcp) (context : DcpContextId)
    (ch : DcpCallChannel) (tag data : List Nat)
    (in_len out_len cbId ckId : Nat)
    (hch : getCallCh dcp context = some ch) (hne : context ≠ .async) :
    getCallCh (dcp_push dcp context tag in_len out_len data cbId ckId).1
        context =
      some { frames :=
        { cb := cbId, cookie := ckId
        , output := (dcp_tx_offset context).getD 0 + dcp_packet_start ch +
            12 + in_len
        , end_ := (dcp_packet_start ch +
            alignUp (12 + in_len + out_len) DCP_PACKET_ALIGNMENT) % 2 ^ 16 }
          :: ch.frames } := by
  simp only [dcp_push, hch]
  exact getCallCh_set _ _ _ hne

/-- C5: the packet start offset for a push is 0 when the channel's call
stack is empty and the previous frame's recorded end otherwise; the
pushed frame records end = start + the packet length aligned up to 64,
so (as long as the sum fits the u16 `end` field, which the 0x8000-byte
windows guarantee for real packets) successive start offsets within an
active stack strictly increase, and a non-empty stack never restarts
at offset 0. -/
theorem dcp_packet_start_push (dcp : AppleDcp) (context : DcpContextId)
    (ch : DcpCallChannel) (tag data : List Nat)
    (in_len out_len cbId ckId : Nat)
    (hch : getCallCh dcp context = some ch)
    (hfit : dcp_packet_start ch +
        alignUp (12 + in_len + out_len) DCP_PACKET_ALIGNMENT < 2 ^ 16) :
    (ch.frames = [] → dcp_packet_start ch = 0) ∧
    (∀ f fs, ch.frames = f :: fs → dcp_packet_start ch = f.end_) ∧
    ∃ ch', getCallCh
        (dcp_push dcp context tag in_len out_len data cbId ckId).1 context =
          some ch' ∧
      ch'.frames.length = ch.frames.length + 1 ∧
      dcp_packet_start ch' =
        dcp_packet_start ch +
          alignUp (12 + in_len + out_len) DCP_PACKET_ALIGNMENT ∧
      dcp_packet_start ch < dcp_packet_start ch' := by
  have hne : context ≠ .async := by
    rintro rfl; simp [getCallCh] at hch
  have halign : 64 ≤ alignUp (12 + in_len + out_len) DCP_PACKET_ALIGNMENT := by
    unfold alignUp DCP_PACKET_ALIGNMENT
    omega
  refine ⟨?_, ?_, ?_⟩
  · intro h; simp [dcp_packet_start, h]
  · intro f fs h; simp [dcp_packet_start, h]
  · refine ⟨_, dcp_push_channel dcp context ch tag data in_len out_len
      cbId ckId hch hne, ?_, ?_, ?_⟩
    · simp
    · exact Nat.mod_eq_of_lt hfit
    · have hmod := Nat.mod_eq_of_lt hfit
      simp only [dcp_packet_start] at hmod ⊢
      omega

/-- Witness for C5: push tag "A401" (in 0, out 4) on the idle Command
channel of a fresh engine. -/
theorem dcp_packet_start_push_witness :
    getCallCh dcpInit .cmd = some { frames := [] } ∧
    dcp_packet_start { frames := [] } +
        alignUp (12 + 0 + 4) DCP_PACKET_ALIGNMENT < 2 ^ 16 ∧
    (({ frames := [] } : DcpCallChannel).frames = [] →
        dcp_packet_start { frames := [] } = 0) ∧
    (∀ f fs, ({ frames := [] } : DcpCallChannel).frames = f :: fs →
        dcp_packet_start { frames := [] } = f.end_) ∧
    ∃ ch', getCallCh
        (dcp_push dcpInit .cmd tag_start_signal 0 4 [] 5 9).1 .cmd =
          some ch' ∧
      ch'.frames.length = ({ frames := [] } : DcpCallChannel).frames.length + 1 ∧
      dcp_packet_start ch' =
        dcp_packet_start { frames := [] } +
          alignUp (12 + 0 + 4) DCP_PACKET_ALIGNMENT ∧
      dcp_packet_start { frames := [] } < dcp_packet_start ch' := by
  refine ⟨rfl, by decide, ?_⟩
  exact dcp_packet_start_push dcpInit .cmd { frames := [] } tag_start_signal
    [] 0 4 5 9 rfl (by decide)

/-- C3 counterexample: with the command channel already at depth 1, a
swap request is *not* rejected: `dcp_swap` sends a new envelope on the
transport and delivers no synthetic completion event at all. -/
theorem dcp_swap_busy_still_sends :
    ((dcp_swap { dcpInit with
        ch_cmd := { frames := [⟨5, 9, 12, 64⟩] } } []).2.1 ≠ []) ∧
    ((dcp_swap { dcpInit with
        ch_cmd := { frames := [⟨5, 9, 12, 64⟩] } } []).2.2 = []) := by
  exact ⟨by decide, rfl⟩

/-- C3 amended: `dcp_swap` performs no busy check: submitted at any
depth ≥ 1 it still pushes `swap_start` — sending exactly one new
envelope, at the previous frame's end offset — and emits no synchronous
vblank/completion event; a synthetic failure completion arises only
later, in the `swap_submit` continuation `dcp_swapped`, when the
response status is non-zero. -/
theorem dcp_swap_busy_pushes (dcp : AppleDcp) (reqBytes : List Nat)
    (f : DcpCallFrame) (fs : List DcpCallFrame)
    (hbusy : dcp.ch_cmd.frames = f :: fs) :
    (dcp_swap dcp reqBytes).2.1 =
      [dcpep_msg DcpContextId.cmd.val 60 f.end_ false] ∧
    (dcp_swap dcp reqBytes).2.2 = [] ∧
    (∀ r, r ≠ 0 → dcp_swapped r = [()]) := by
  refine ⟨?_, rfl, ?_⟩
  · simp [dcp_swap, dcp_push, getCallCh, dcp_packet_start, hbusy]
  · intro r hr; simp [dcp_swapped, hr]

/-- Witness for C3 amended: a state with one in-flight command call. -/
theorem dcp_swap_busy_pushes_witness :
    ({ dcpInit with
        ch_cmd := { frames := [⟨5, 9, 12, 64⟩] } } : AppleDcp).ch_cmd.frames =
      (⟨5, 9, 12, 64⟩ : DcpCallFrame) :: [] ∧
    ((dcp_swap { dcpInit with
        ch_cmd := { frames := [⟨5, 9, 12, 64⟩] } } []).2.1 =
      [dcpep_msg DcpContextId.cmd.val 60
        (DcpCallFrame.mk 5 9 12 64).end_ false] ∧
    (dcp_swap { dcpInit with
        ch_cmd := { frames := [⟨5, 9, 12, 64⟩] } } []).2.2 = [] ∧
    (∀ r, r ≠ 0 → dcp_swapped r = [()])) :=
  ⟨rfl, dcp_swap_busy_pushes _ [] ⟨5, 9, 12, 64⟩ [] rfl⟩

/-- C8 counterexample: the envelope sent for the "A401" scenario has
length 16, not the claimed 12 — the packet header alone is 12 bytes
(4 tag + u32 in_len + u32 out_len), so input 0 and output 4 give a
total of 16. -/
theorem push_a401_length_not_12 :
    (dcpep_decode (dcp_push dcpInit .cmd tag_start_signal 0 4 [] 5 9).2).len
        = 16 ∧ (16 : Nat) ≠ 12 :=
  ⟨by decide, by decide⟩

/-- C8 amended: pushing tag "A401" (input 0, output 4) on the idle
Command channel sends the envelope context=Command(2), offset=0,
length=16 (12-byte header + 0 input + 4 output bytes, unaligned), and
the matching ack pops the frame and invokes the registered continuation
(id 5) with its cookie (9) on the 4-byte output view at window offset
12 — immediately after the header and input bytes. -/
theorem push_a401_ack_scenario :
    (dcp_push dcpInit .cmd tag_start_signal 0 4 [] 5 9).2 =
      dcpep_msg DcpContextId.cmd.val 16 0 false ∧
    dcpep_decode (dcp_push dcpInit .cmd tag_start_signal 0 4 [] 5 9).2 =
      ⟨DCPEP_TYPE_MESSAGE, false, DcpContextId.cmd.val, 0, 16⟩ ∧
    (dcpep_handle_ack
        (dcp_push dcpInit .cmd tag_start_signal 0 4 [] 5 9).1 .cmd 0).2 =
      some (5, 12, 9) := by
  refine ⟨by decide, by decide, by decide⟩

theorem round_up4_ge (x : Nat) : x ≤ round_up4 x := by
  unfold round_up4; omega

theorem parse_bytes_err (ctx : DcpParseCtx) (count : Nat)
    (h : ctx.pos + count > ctx.len) :
    parse_bytes ctx count = (.error (-22), ctx) := by
  unfold parse_bytes; rw [if_pos h]

theorem parse_bytes_ok (ctx : DcpParseCtx) (count : Nat)
    (h : ¬ ctx.pos + count > ctx.len) :
    parse_bytes ctx count =
      (.ok ((ctx.blob.drop ctx.pos).take count),
        { ctx with pos := ctx.pos + count }) := by
  unfold parse_bytes; rw [if_neg h]

theorem parse_tag_mono (ctx : DcpParseCtx) (res : Except Int OsTag)
    (c : DcpParseCtx) (h : parse_tag ctx = (res, c)) :
    ctx.pos ≤ c.pos ∧ c.len = ctx.len := by
  have hge := round_up4_ge ctx.pos
  unfold parse_tag at h
  by_cases hg : round_up4 ctx.pos + 4 > ctx.len
  · rw [parse_bytes_err ⟨ctx.blob, round_up4 ctx.pos, ctx.len⟩ 4 hg] at h
    dsimp only at h
    injection h with h1 h2
    subst h2
    exact ⟨hge, rfl⟩
  · rw [parse_bytes_ok ⟨ctx.blob, round_up4 ctx.pos, ctx.len⟩ 4 hg] at h
    dsimp only at h
    split at h <;>
      (injection h with h1 h2; subst h2;
       exact ⟨show ctx.pos ≤ round_up4 ctx.pos + 4 by omega, rfl⟩)

theorem parse_tag_ok (ctx : DcpParseCtx) (t : OsTag) (c : DcpParseCtx)
    (h : parse_tag ctx = (.ok t, c)) :
    c.pos = round_up4 ctx.pos + 4 ∧ c.pos ≤ c.len ∧ c.len = ctx.len ∧
      ctx.pos + 4 ≤ c.pos := by
  have hge := round_up4_ge ctx.pos
  unfold parse_tag at h
  by_cases hg : round_up4 ctx.pos + 4 > ctx.len
  · rw [parse_bytes_err ⟨ctx.blob, round_up4 ctx.pos, ctx.len⟩ 4 hg] at h
    dsimp only at h
    exact absurd h (by simp)
  · rw [parse_bytes_ok ⟨ctx.blob, round_up4 ctx.pos, ctx.len⟩ 4 hg] at h
    dsimp only at h
    split at h
    · exact absurd h (by simp)
    · injection h with h1 h2
      subst h2
      refine ⟨rfl, show round_up4 ctx.pos + 4 ≤ ctx.len by omega, rfl,
        show ctx.pos + 4 ≤ round_up4 ctx.pos + 4 by omega⟩

theorem skipN_mono (f : DcpParseCtx → Option (Int × DcpParseCtx))
    (hf : ∀ ctx r c, f ctx = some (r, c) → ctx.pos ≤ c.pos ∧ c.len = ctx.len) :
    ∀ (n : Nat) (ret : Int) (ctx : DcpParseCtx) (r : Int) (c : DcpParseCtx),
      skipN f n ret ctx = some (r, c) → ctx.pos ≤ c.pos ∧ c.len = ctx.len := by
  intro n
  induction n with
  | zero =>
    intro ret ctx r c h
    simp [skipN] at h
    simp [h.2.symm]
  | succ n ih =>
    intro ret ctx r c h
    unfold skipN at h
    cases hf' : f ctx with
    | none => rw [hf'] at h; simp at h
    | some rc =>
      obtain ⟨r1, c1⟩ := rc
      rw [hf'] at h
      have h1 := hf ctx r1 c1 hf'
      have h2 := ih _ c1 r c h
      exact ⟨le_trans h1.1 h2.1, h2.2.trans h1.2⟩

theorem skip_mono : ∀ (fuel : Nat) (ctx : DcpParseCtx) (r : Int)
    (c : DcpParseCtx), skip fuel ctx = some (r, c) →
    ctx.pos ≤ c.pos ∧ c.len = ctx.len := by
  intro fuel
  induction fuel with
  | zero => intro ctx r c h; simp [skip] at h
  | succ fuel ih =>
    intro ctx r c h
    unfold skip at h
    cases htag : parse_tag ctx with
    | mk res c1 =>
      rw [htag] at h
      have hm := parse_tag_mono ctx res c1 htag
      cases res with
      | error e =>
        dsimp only at h
        injection h with h'
        injection h' with h1 h2
        subst h2
        exact hm
      | ok tag =>
        dsimp only at h
        split at h
        · have h2 := skipN_mono _ ih _ _ _ _ _ h
          exact ⟨le_trans hm.1 h2.1, h2.2.trans hm.2⟩
        · split at h
          · have h2 := skipN_mono _ ih _ _ _ _ _ h
            exact ⟨le_trans hm.1 h2.1, h2.2.trans hm.2⟩
          · split at h
            · injection h with h'
              injection h' with h1 h2
              subst h2
              exact ⟨by simp; omega, by simp [hm.2]⟩
            · split at h
              · injection h with h'
                injection h' with h1 h2
                subst h2
                exact ⟨by simp; omega, by simp [hm.2]⟩
              · split at h <;>
                  (injection h with h'; injection h' with h1 h2; subst h2;
                   exact hm)

theorem skipN_isSome (f : DcpParseCtx → Option (Int × DcpParseCtx)) (B : Nat)
    (hmono : ∀ ctx r c, f ctx = some (r, c) → ctx.pos ≤ c.pos ∧ c.len = ctx.len)
    (hsome : ∀ ctx : DcpParseCtx, ctx.len + 4 - ctx.pos < B → (f ctx).isSome) :
    ∀ (n : Nat) (ret : Int) (ctx : DcpParseCtx),
      ctx.len + 4 - ctx.pos < B → (skipN f n ret ctx).isSome := by
  intro n
  induction n with
  | zero => intro ret ctx _; simp [skipN]
  | succ n ih =>
    intro ret ctx hb
    unfold skipN
    have h1 := hsome ctx hb
    cases hf : f ctx with
    | none => rw [hf] at h1; simp at h1
    | some rc =>
      obtain ⟨r, c⟩ := rc
      have hm := hmono ctx r c hf
      dsimp only
      exact ih _ c (by omega)

/-- C10: `skip` terminates on every input blob, however adversarial:
recursion only follows a successful `parse_tag`, which advances the
cursor by at least 4 while staying inside the blob, so the nesting
depth is bounded by the blob length; any fuel above
`(len + 4 - pos) / 4` completes (each nested call runs on fuel - 1;
sequential calls in one dictionary/array loop reuse the same fuel, so
fuel only has to cover the call-tree depth — arbitrarily large declared
element counts only widen the loops, whose bodies either fail with an
error or advance the bounded cursor, and cannot recurse forever). -/
theorem skip_terminates : ∀ (fuel : Nat) (ctx : DcpParseCtx),
    ctx.len + 4 - ctx.pos < 4 * fuel → (skip fuel ctx).isSome := by
  intro fuel
  induction fuel with
  | zero => intro ctx h; omega
  | succ fuel ih =>
    intro ctx h
    unfold skip
    cases htag : parse_tag ctx with
    | mk res c1 =>
      cases res with
      | error e => simp
      | ok tag =>
        have hok := parse_tag_ok ctx tag c1 htag
        have hb : c1.len + 4 - c1.pos < 4 * fuel := by omega
        dsimp only
        split
        · exact skipN_isSome _ (4 * fuel) (skip_mono fuel) ih _ 0 c1 hb
        · split
          · exact skipN_isSome _ (4 * fuel) (skip_mono fuel) ih _ 0 c1 hb
          · split
            · simp
            · split
              · simp
              · split <;> simp

/-- Witness for C10: a truncated dictionary declaring 3 pairs (the blob
is just the tag word) terminates with fuel 3. -/
theorem skip_terminates_witness :
    (ctxAt [3, 0, 0, 1] 0).len + 4 - (ctxAt [3, 0, 0, 1] 0).pos < 4 * 3 ∧
    (skip 3 (ctxAt [3, 0, 0, 1] 0)).isSome = true :=
  ⟨by decide, skip_terminates 3 (ctxAt [3, 0, 0, 1] 0) (by decide)⟩
